import Mathlib

/-!
Verification development for the conversational-agent backend
(tool-orchestration loop and capability-dispatch layer).

The definitions below are a shallow embedding of the Python source:
`src/core/tools.py` (ToolManager, WEB_SEARCH_SCHEMA) and
`src/core/chat.py` (Chat: query preprocessing and the turn loop).
Asynchronous calls are modelled as pure functions; the fact that a
capability client's advertised tool catalog may change between calls is
modelled by indexing the catalog with a fetch epoch (`toolsAt : Nat → _`).
Fallible operations return `Except`; in-place mutation of the message
history becomes explicit state passing.
-/

namespace Fulcrum

/-- Message role, the `"user" | "assistant"` strings of the source. -/
inductive Role where
  | user
  | assistant
deriving DecidableEq, Repr

/-- `mcp.types.Tool` as consumed by the core: name, description and input
schema (the schema is opaque to the core, modelled as a string). -/
structure ToolDef where
  name : String
  description : String
  inputSchema : String
deriving DecidableEq, Repr

/-- An entry of the tool catalog handed to the language-model gateway:
either the module-level web-search dict of `tools.py` or an
`{name, description, input_schema}` dict built from a client tool. -/
inductive ToolSchema where
  | webSearch (ty : String) (name : String) (max_uses : Int)
      (allowed_domains : List String)
  | mcp (name : String) (description : String) (input_schema : String)
deriving DecidableEq, Repr

/-- A content block of an `anthropic.types.Message` response. -/
inductive RespBlock where
  | text (text : String)
  | tool_use (id : String) (name : String) (input : String)
  | other
deriving DecidableEq, Repr

/-- An `anthropic.types.Message`: content blocks plus the stop reason
(the source compares `stop_reason` against the string literal
`"tool_use"`). -/
structure RespMessage where
  content : List RespBlock
  stop_reason : String
deriving DecidableEq, Repr

/-- `ToolResultBlockParam` built by `ToolManager._build_tool_result_part`. -/
structure ToolResultBlockParam where
  tool_use_id : String
  type : String
  content : String
  is_error : Bool
deriving DecidableEq, Repr

/-- A content item of an MCP `CallToolResult` (`TextContent` or anything
else). -/
inductive MCPContent where
  | text (text : String)
  | other
deriving DecidableEq, Repr

/-- `mcp.types.CallToolResult`: content items plus the server-reported
error flag. -/
structure CallToolResult where
  content : List MCPContent
  isError : Bool
deriving DecidableEq, Repr

/-- The content of a history `MessageParam`: the source stores either a
plain string, the content-block list of an assistant response, a list of
tool-result blocks, or a list of text blocks converted from a prompt
template. -/
inductive MPContent where
  | str (s : String)
  | blocks (bs : List RespBlock)
  | toolResults (rs : List ToolResultBlockParam)
  | textBlocks (ts : List String)
deriving DecidableEq, Repr

/-- One entry of the conversation history (`anthropic.types.MessageParam`). -/
structure MessageParam where
  role : Role
  content : MPContent
deriving DecidableEq, Repr

/-- A capability client (`MCPClient`). `toolsAt n` is the catalog the
server advertises at fetch epoch `n`: every `list_tools` round trip reads
the catalog current at that moment, so the result may differ between
epochs. `call_tool` either raises (`Except.error` carries the rendered
exception message) or returns the server result, which the source types
as `CallToolResult | None`. -/
structure MCPClient where
  toolsAt : Nat → List ToolDef
  call_tool : String → String → Except String (Option CallToolResult)

/-- `mcp.types.Prompt` as far as the core reads it. -/
structure Prompt where
  name : String
  description : String
deriving DecidableEq, Repr

/-- An item of a list-shaped prompt-message content. -/
inductive PMItem where
  | text (text : String)
  | other
deriving DecidableEq, Repr

/-- The content of an MCP `PromptMessage` as the converter inspects it: a
dict-like object whose `type` is `"text"` (carrying that text), some
other dict-like object, or a list of items. -/
inductive PMContent where
  | text (text : String)
  | obj
  | blocks (items : List PMItem)
deriving DecidableEq, Repr

/-- `mcp.types.PromptMessage`: a role string and a content shape. -/
structure PromptMessage where
  role : String
  content : PMContent
deriving DecidableEq, Repr

/-- The document/prompt resource collaborator (the `doc_client`): the
current id listing, per-id content, the advertised prompt list, and
prompt-template rendering (`get_prompt name {doc_id := arg}`). -/
structure DocClient where
  docIds : List String
  docContent : String → String
  prompts : List Prompt
  get_prompt : String → String → List PromptMessage

/-- A tool-use request extracted from an assistant message. -/
structure ToolUseReq where
  id : String
  name : String
  input : String
deriving DecidableEq, Repr

/-! ### Python string/JSON primitives used by the source -/

/-- Python `s.startswith(p)`: `p`'s characters are an initial run of
`s`'s. -/
def pyStartsWith (s p : String) : Bool :=
  p.data.isPrefixOf s.data

/-- Python `s[n:]`. -/
def pyDrop (s : String) (n : Nat) : String :=
  String.mk (s.data.drop n)

/-- Python `str.strip()`: whitespace removed from both ends. -/
def pyStrip (s : String) : String :=
  String.mk
    (((s.data.dropWhile Char.isWhitespace).reverse.dropWhile
      Char.isWhitespace).reverse)

/-- Accumulator pass of `str.split()` with no argument. -/
def pySplitAux : List Char → List Char → List String
  | [], acc => if acc.isEmpty then [] else [String.mk acc.reverse]
  | c :: cs, acc =>
    if c.isWhitespace then
      if acc.isEmpty then pySplitAux cs []
      else String.mk acc.reverse :: pySplitAux cs []
    else pySplitAux cs (c :: acc)

/-- Python `str.split()` with no argument: split on runs of whitespace,
discarding empty pieces. -/
def pySplit (s : String) : List String :=
  pySplitAux s.data []

/-- Accumulator pass of `str.split(sep)` for a one-character separator. -/
def pySplitCharAux (sep : Char) : List Char → List Char → List String
  | [], acc => [String.mk acc.reverse]
  | c :: cs, acc =>
    if c = sep then String.mk acc.reverse :: pySplitCharAux sep cs []
    else pySplitCharAux sep cs (c :: acc)

/-- Python `s.split(sep)` for a one-character separator: empty pieces are
kept, and the empty string splits to `[""]`. -/
def pySplitChar (s : String) (sep : Char) : List String :=
  pySplitCharAux sep s.data []

/-- One fuelled pass of `str.replace`: at each position, either consume a
match of `old` (emitting `new`) or copy one character. The fuel is the
input length; a non-empty `old` consumes at least one character per
step, so the fuel never runs out on the source's uses. -/
def pyReplaceFuel (old new : List Char) : Nat → List Char → List Char
  | 0, cs => cs
  | _ + 1, [] => []
  | fuel + 1, c :: cs =>
    if old.isPrefixOf (c :: cs) then
      new ++ pyReplaceFuel old new fuel (cs.drop (old.length - 1))
    else c :: pyReplaceFuel old new fuel cs

/-- Python `s.replace(old, new)` for the non-empty patterns the source
uses (the only call site replaces `"/"`). -/
def pyReplace (s old new : String) : String :=
  if old.data.isEmpty then s
  else String.mk (pyReplaceFuel old.data new.data s.data.length s.data)

/-- Lower-case hexadecimal digit, as emitted by `json.dumps` escapes. -/
def hexDigitChar (n : Nat) : Char :=
  if n < 10 then Char.ofNat (48 + n) else Char.ofNat (87 + n)

/-- Four lower-case hex digits. -/
def hex4 (n : Nat) : String :=
  String.mk [hexDigitChar (n / 4096 % 16), hexDigitChar (n / 256 % 16),
    hexDigitChar (n / 16 % 16), hexDigitChar (n % 16)]

/-- `json.dumps` escaping of one character (default `ensure_ascii=True`):
quote, backslash and the short control escapes, `\uXXXX` for other
control and non-ASCII characters, surrogate pairs above the BMP. -/
def jsonEscapeChar (c : Char) : String :=
  if c = Char.ofNat 34 then String.mk [Char.ofNat 92, Char.ofNat 34]
  else if c = Char.ofNat 92 then String.mk [Char.ofNat 92, Char.ofNat 92]
  else if c = Char.ofNat 10 then String.mk [Char.ofNat 92, Char.ofNat 110]
  else if c = Char.ofNat 13 then String.mk [Char.ofNat 92, Char.ofNat 114]
  else if c = Char.ofNat 9 then String.mk [Char.ofNat 92, Char.ofNat 116]
  else if c = Char.ofNat 8 then String.mk [Char.ofNat 92, Char.ofNat 98]
  else if c = Char.ofNat 12 then String.mk [Char.ofNat 92, Char.ofNat 102]
  else if c.toNat < 32 then "\\u" ++ hex4 c.toNat
  else if c.toNat < 127 then String.singleton c
  else if c.toNat < 65536 then "\\u" ++ hex4 c.toNat
  else
    "\\u" ++ hex4 (55296 + (c.toNat - 65536) / 1024) ++
      "\\u" ++ hex4 (56320 + (c.toNat - 65536) % 1024)

/-- `json.dumps` of a string value. -/
def jsonDumpsString (s : String) : String :=
  "\x22" ++ String.join (s.data.map jsonEscapeChar) ++ "\x22"

/-- `json.dumps` of a list of strings (default separators). -/
def jsonDumpsList (xs : List String) : String :=
  "[" ++ String.intercalate ", " (xs.map jsonDumpsString) ++ "]"

/-- `json.dumps({"error": s})` with the default separators. -/
def jsonDumpsErrorObj (s : String) : String :=
  "\x7b\x22error\x22: " ++ jsonDumpsString s ++ "\x7d"

/-- Value of a decimal digit character. -/
def digitVal (c : Char) : Option Nat :=
  if c.isDigit then some (c.toNat - 48) else none

/-- Parse a non-empty run of decimal digits. -/
def parseNatDigits (cs : List Char) : Option Nat :=
  match cs with
  | [] => none
  | _ =>
    cs.foldl
      (fun acc c =>
        match acc, digitVal c with
        | some a, some d => some (a * 10 + d)
        | _, _ => none)
      (some 0)

/-- Python `int(s)` on a string: surrounding whitespace stripped, an
optional sign, then decimal digits; `none` models the `ValueError`. -/
def pyInt (s : String) : Option Int :=
  match (pyStrip s).data with
  | '-' :: rest => (parseNatDigits rest).map (fun n => -(n : Int))
  | '+' :: rest => (parseNatDigits rest).map (fun n => (n : Int))
  | cs => (parseNatDigits cs).map (fun n => (n : Int))

/-! ### `src/core/tools.py` -/

/-- `_web_search_allowed_domains`: read `WEB_SEARCH_ALLOWED_DOMAINS`
(default `"google.com"`), split on commas, strip each piece, drop the
empty ones. `env` models `os.getenv`. -/
def web_search_allowed_domains (env : String → Option String) : List String :=
  let raw := (env "WEB_SEARCH_ALLOWED_DOMAINS").getD "google.com"
  ((pySplitChar raw (Char.ofNat 44)).map pyStrip).filter (fun d => d ≠ "")

/-- The module-level `WEB_SEARCH_SCHEMA` dict. `max_uses` is
`int(os.getenv("WEB_SEARCH_MAX_USES", "5"))`; a value `int` cannot parse
makes the module fail to import, modelled by `none`. -/
def WEB_SEARCH_SCHEMA (env : String → Option String) : Option ToolSchema :=
  (pyInt ((env "WEB_SEARCH_MAX_USES").getD "5")).map
    (fun m => ToolSchema.webSearch "web_search_20250305" "web_search" m
      (web_search_allowed_domains env))

/-- `ToolManager.get_all_tools`: concatenate, in registration order, each
client's current catalog mapped to `{name, description, input_schema}`
dicts. `t` is the fetch epoch of this round of `list_tools` calls. -/
def get_all_tools (clients : List MCPClient) (t : Nat) : List ToolSchema :=
  (clients.map (fun c =>
    (c.toolsAt t).map (fun tl =>
      ToolSchema.mcp tl.name tl.description tl.inputSchema))).flatten

/-- `ToolManager._find_client_with_tool`: walk the clients in order; for
each, fetch its current catalog (`list_tools` at epoch `t`) and return
the first client whose catalog contains a tool with the requested name. -/
def find_client_with_tool (clients : List MCPClient) (t : Nat)
    (tool_name : String) : Option MCPClient :=
  match clients with
  | [] => none
  | client :: rest =>
    match (client.toolsAt t).find? (fun tl => tl.name = tool_name) with
    | some _ => some client
    | none => find_client_with_tool rest t tool_name

/-- `ToolManager._build_tool_result_part`. -/
def build_tool_result_part (tool_use_id : String) (text : String)
    (is_error : Bool) : ToolResultBlockParam :=
  { tool_use_id := tool_use_id, type := "tool_result", content := text,
    is_error := is_error }

/-- The `tool_requests` list of `execute_tool_requests`: the `tool_use`
blocks of the message, in order. -/
def tool_requests (message : RespMessage) : List ToolUseReq :=
  message.content.filterMap (fun b =>
    match b with
    | RespBlock.tool_use id name input => some ⟨id, name, input⟩
    | _ => none)

/-- The error message rendered by the `except` branch of
`execute_tool_requests`: `f"Error executing tool '{tool_name}': {e}"`. -/
def toolErrorMessage (tool_name : String) (e : String) : String :=
  "Error executing tool \x27" ++ tool_name ++ "\x27: " ++ e

/-- The body of the dispatch loop of `ToolManager.execute_tool_requests`
for one tool request, at fetch epoch `t`: resolve the owning client; if
none, the fixed not-found error block; otherwise invoke the tool,
JSON-encode the text segments of the result on success, and convert a
raised error into a JSON `{"error": ...}` block. -/
def execute_one (clients : List MCPClient) (t : Nat) (req : ToolUseReq) :
    ToolResultBlockParam :=
  match find_client_with_tool clients t req.name with
  | none => build_tool_result_part req.id "Could not find that tool" true
  | some client =>
    match client.call_tool req.name req.input with
    | Except.error e =>
      build_tool_result_part req.id
        (jsonDumpsErrorObj (toolErrorMessage req.name e)) true
    | Except.ok tool_output =>
      let items :=
        match tool_output with
        | some r => r.content
        | none => []
      let content_list := items.filterMap (fun item =>
        match item with
        | MCPContent.text s => some s
        | MCPContent.other => none)
      build_tool_result_part req.id (jsonDumpsList content_list)
        (match tool_output with
         | some r => r.isError
         | none => false)

/-- `ToolManager.execute_tool_requests`: one result block per `tool_use`
block of the message, produced strictly sequentially in request order.
Request number `i` performs its catalog fetches at epoch `t + i`, so
every dispatch re-queries the current catalogs. -/
def execute_tool_requests (clients : List MCPClient) (t : Nat)
    (message : RespMessage) : List ToolResultBlockParam :=
  ((tool_requests message).enum).map
    (fun p => execute_one clients (t + p.1) p.2)

/-! ### `src/core/chat.py` -/

/-- `convert_prompt_message_to_message_param`. -/
def convert_prompt_message_to_message_param (prompt_message : PromptMessage) :
    MessageParam :=
  let role := if prompt_message.role = "user" then Role.user else Role.assistant
  match prompt_message.content with
  | PMContent.text s => { role := role, content := MPContent.str s }
  | PMContent.obj => { role := role, content := MPContent.str "" }
  | PMContent.blocks items =>
    let text_blocks := items.filterMap (fun item =>
      match item with
      | PMItem.text s => some s
      | PMItem.other => none)
    if text_blocks ≠ [] then
      { role := role, content := MPContent.textBlocks text_blocks }
    else
      { role := role, content := MPContent.str "" }

/-- `convert_prompt_messages_to_message_params`. -/
def convert_prompt_messages_to_message_params
    (prompt_messages : List PromptMessage) : List MessageParam :=
  prompt_messages.map convert_prompt_message_to_message_param

/-- `Chat.list_prompts`: empty when there is no doc client. -/
def list_prompts (doc_client : Option DocClient) : List Prompt :=
  match doc_client with
  | none => []
  | some d => d.prompts

/-- `Chat.list_docs_ids`: empty when there is no doc client, otherwise
the store's current id listing (`read_resource("docs://documents")`). -/
def list_docs_ids (doc_client : Option DocClient) : List String :=
  match doc_client with
  | none => []
  | some d => d.docIds

/-- `Chat.get_doc_content`: the empty string when there is no doc client,
otherwise `read_resource(f"docs://documents/{doc_id}")`. -/
def get_doc_content (doc_client : Option DocClient) (doc_id : String) :
    String :=
  match doc_client with
  | none => ""
  | some d => d.docContent doc_id

/-- The `mentions` list of `Chat._extract_resources`:
`[word[1:] for word in query.split() if word.startswith("@")]`. -/
def mentions_of (query : String) : List String :=
  (pySplit query).filterMap (fun word =>
    if pyStartsWith word "@" then some (pyDrop word 1) else none)

/-- The `mentioned_docs` list of `Chat._extract_resources`: walk the
store's id listing in order, and for every id that occurs among the
mentions fetch its content once. -/
def mentioned_docs (d : DocClient) (query : String) :
    List (String × String) :=
  d.docIds.filterMap (fun doc_id =>
    if (mentions_of query).contains doc_id then
      some (doc_id, d.docContent doc_id)
    else none)

/-- The `<document>` block rendered for one mentioned doc. -/
def documentBlock (doc_id : String) (content : String) : String :=
  "\n<document id=\x22" ++ doc_id ++ "\x22>\n" ++ content ++ "\n</document>\n"

/-- `Chat._extract_resources`: empty string without a doc client,
otherwise the concatenated document blocks of the mentioned docs. -/
def extract_resources (doc_client : Option DocClient) (query : String) :
    String :=
  match doc_client with
  | none => ""
  | some d =>
    String.join ((mentioned_docs d query).map (fun p => documentBlock p.1 p.2))

/-- `Chat._process_command`: `none` models returning `False` (no doc
client, no leading `/`, or fewer than two tokens); otherwise the message
params appended to history: the rendered template for the command name
`words[0].replace("/", "")` with argument `{doc_id: words[1]}`. -/
def process_command (doc_client : Option DocClient) (query : String) :
    Option (List MessageParam) :=
  match doc_client with
  | none => none
  | some d =>
    if pyStartsWith query "/" then
      let words := pySplit query
      let command := pyReplace (words.headD "") "/" ""
      if words.length < 2 then none
      else
        some (convert_prompt_messages_to_message_params
          (d.get_prompt command (words.getD 1 "")))
    else none

/-- The instructional wrapper prompt built by `Chat._process_query`
around the literal query and the extracted context. -/
def queryPrompt (query : String) (added_resources : String) : String :=
  "\nThe user has a question:\n<query>\n" ++ query ++ "\n</query>\n\n" ++
  "The following context may be useful in answering their question:\n" ++
  "<context>\n" ++ added_resources ++ "\n</context>\n\n" ++
  "Note the user\x27s query might contain references to documents like \x22@report.docx\x22. The \x22@\x22 is only\n" ++
  "included as a way of mentioning the doc. The actual name of the document would be \x22report.docx\x22.\n" ++
  "If the document content is included in this prompt, you don\x27t need to use an additional tool to read the document.\n" ++
  "Answer the user\x27s question directly and concisely. Start with the exact information they need.\n" ++
  "Don\x27t refer to or mention the provided context in any way - just use it to inform your answer.\n"

/-- `Chat._process_query`: the slash-command path appends the rendered
template verbatim; otherwise one synthesized user message wrapping the
query and the extracted context is appended. -/
def process_query (doc_client : Option DocClient)
    (messages : List MessageParam) (query : String) : List MessageParam :=
  match process_command doc_client query with
  | some newMessages => messages ++ newMessages
  | none =>
    messages ++
      [{ role := Role.user,
         content := MPContent.str
           (queryPrompt query (extract_resources doc_client query)) }]

/-- `Claude.text_from_message`: the text blocks of the response joined by
newline. -/
def text_from_message (message : RespMessage) : String :=
  String.intercalate "\n" (message.content.filterMap (fun b =>
    match b with
    | RespBlock.text s => some s
    | _ => none))

/-- The history entry appended by `Claude.add_assistant_message` for a
gateway response. -/
def assistantParam (response : RespMessage) : MessageParam :=
  { role := Role.assistant, content := MPContent.blocks response.content }

/-- The history entry appended by `Claude.add_user_message` for the
collected tool-result blocks. -/
def toolResultsParam (parts : List ToolResultBlockParam) : MessageParam :=
  { role := Role.user, content := MPContent.toolResults parts }

/-- Outcome of the turn loop: a final answer, a propagated gateway
failure, or fuel exhaustion (the source loop is unbounded; `outOfFuel`
only marks that the chosen bound was reached, never a behaviour of the
code). -/
inductive RunOutcome where
  | ok (answer : String)
  | gatewayError (e : String)
  | outOfFuel
deriving DecidableEq, Repr

/-- The gateway collaborator (`Claude.chat`): iteration index, full
history and tool catalog in; a structured response or a raised error
out. -/
def Gateway : Type :=
  Nat → List MessageParam → List ToolSchema → Except String RespMessage

/-- The `while True` turn loop of `Chat.run`, with the history passed
explicitly. Iteration `n` builds the catalog `ws :: get_all_tools` at
epoch `n`, calls the gateway, appends the assistant message, and on stop
reason `"tool_use"` dispatches the requests and appends their results as
one user message before looping. A gateway error propagates at once,
returning the history exactly as it was when that call was made. -/
def runLoop (gw : Gateway) (clients : List MCPClient) (ws : ToolSchema) :
    Nat → Nat → List MessageParam → List MessageParam × RunOutcome
  | 0, _, messages => (messages, RunOutcome.outOfFuel)
  | fuel + 1, n, messages =>
    match gw n messages (ws :: get_all_tools clients n) with
    | Except.error e => (messages, RunOutcome.gatewayError e)
    | Except.ok response =>
      let messages1 := messages ++ [assistantParam response]
      if response.stop_reason = "tool_use" then
        let tool_result_parts := execute_tool_requests clients n response
        runLoop gw clients ws fuel (n + 1)
          (messages1 ++ [toolResultsParam tool_result_parts])
      else
        (messages1, RunOutcome.ok (text_from_message response))

/-- `Chat.run`: preprocess the query into history, then run the turn
loop. -/
def run (gw : Gateway) (clients : List MCPClient) (ws : ToolSchema)
    (doc_client : Option DocClient) (fuel : Nat) (messages : List MessageParam)
    (query : String) : List MessageParam × RunOutcome :=
  runLoop gw clients ws fuel 0 (process_query doc_client messages query)

/-! ### The dispatcher resolution rule, stated from the spec's words -/

/-- Spec wording of §4.3 resolution: the first client, in registration
order, whose current catalog (at fetch epoch `t`) contains the requested
name. -/
def first_client_with_current_catalog (clients : List MCPClient) (t : Nat)
    (name : String) : Option MCPClient :=
  clients.find? (fun c => (c.toolsAt t).any (fun tl => tl.name == name))

/-! ### Helper lemmas -/

/-- Every branch of the dispatch body stamps the request's own id on the
result block. -/
theorem execute_one_tool_use_id (clients : List MCPClient) (t : Nat)
    (req : ToolUseReq) : (execute_one clients t req).tool_use_id = req.id := by
  unfold execute_one
  cases find_client_with_tool clients t req.name with
  | none => rfl
  | some client =>
    dsimp only
    cases client.call_tool req.name req.input with
    | error e => rfl
    | ok out => rfl

/-- The result blocks carry the request ids, same count and order. -/
theorem execute_tool_requests_ids (clients : List MCPClient) (t : Nat)
    (message : RespMessage) :
    (execute_tool_requests clients t message).map
        (fun b => b.tool_use_id) =
      (tool_requests message).map (fun r => r.id) := by
  unfold execute_tool_requests
  rw [List.map_map]
  have h1 : ((fun b : ToolResultBlockParam => b.tool_use_id) ∘
      fun p : Nat × ToolUseReq => execute_one clients (t + p.1) p.2) =
      fun p : Nat × ToolUseReq => p.2.id := by
    funext p
    exact execute_one_tool_use_id clients (t + p.1) p.2
  rw [h1]
  have h2 : (fun p : Nat × ToolUseReq => p.2.id) =
      (fun r : ToolUseReq => r.id) ∘ Prod.snd := rfl
  rw [h2, ← List.map_map, List.enum_map_snd]

/-- If no registered client currently advertises the name, resolution
returns no client. -/
theorem find_client_with_tool_eq_none (clients : List MCPClient) (t : Nat)
    (name : String)
    (h : ∀ c ∈ clients, ∀ tl ∈ c.toolsAt t, tl.name ≠ name) :
    find_client_with_tool clients t name = none := by
  induction clients with
  | nil => rfl
  | cons c rest ih =>
    unfold find_client_with_tool
    have hfind : ((c.toolsAt t).find? (fun tl => tl.name = name)) = none := by
      rw [List.find?_eq_none]
      intro tl htl
      simpa using h c (by simp) tl htl
    rw [hfind]
    exact ih (fun c' hc' tl htl => h c' (List.mem_cons_of_mem c hc') tl htl)

/-- A gateway error at the head of the loop returns at once with the
history untouched. -/
theorem runLoop_gateway_error (gw : Gateway) (clients : List MCPClient)
    (ws : ToolSchema) (fuel n : Nat) (messages : List MessageParam)
    (e : String)
    (hgw : gw n messages (ws :: get_all_tools clients n) = Except.error e) :
    runLoop gw clients ws (fuel + 1) n messages =
      (messages, RunOutcome.gatewayError e) := by
  simp only [runLoop]
  rw [hgw]

/-- One complete tool-use iteration: the assistant response and then
exactly one user message holding the dispatched results are appended,
and the loop proceeds to the next gateway call. -/
theorem runLoop_tool_use_step (gw : Gateway) (clients : List MCPClient)
    (ws : ToolSchema) (fuel n : Nat) (messages : List MessageParam)
    (response : RespMessage)
    (hstop : response.stop_reason = "tool_use")
    (hgw : gw n messages (ws :: get_all_tools clients n) =
      Except.ok response) :
    runLoop gw clients ws (fuel + 1) n messages =
      runLoop gw clients ws fuel (n + 1)
        (messages ++ [assistantParam response,
          toolResultsParam (execute_tool_requests clients n response)]) := by
  simp only [runLoop]
  rw [hgw]
  simp [hstop]

/-- A terminal response appends only the assistant message and returns
its concatenated text. -/
theorem runLoop_done (gw : Gateway) (clients : List MCPClient)
    (ws : ToolSchema) (fuel n : Nat) (messages : List MessageParam)
    (response : RespMessage)
    (hstop : response.stop_reason ≠ "tool_use")
    (hgw : gw n messages (ws :: get_all_tools clients n) =
      Except.ok response) :
    runLoop gw clients ws (fuel + 1) n messages =
      (messages ++ [assistantParam response],
        RunOutcome.ok (text_from_message response)) := by
  simp only [runLoop]
  rw [hgw]
  simp [hstop]

/-- Generic form of the mentioned-docs projection: mapping `fst` over the
filterMap yields the filter of the id listing. -/
theorem filterMap_mention_map_fst (f : String → String) (ms : List String) :
    ∀ l : List String,
      ((l.filterMap (fun i =>
        if ms.contains i then some (i, f i) else none)).map Prod.fst) =
        l.filter (fun i => ms.contains i) := by
  intro l
  induction l with
  | nil => rfl
  | cons i rest ih =>
    by_cases h : ms.contains i
    · simp only [List.filterMap_cons, h, if_pos, List.map_cons,
        List.filter_cons, ih]
    · simp only [List.filterMap_cons, h, if_neg, List.filter_cons, ih,
        Bool.false_eq_true, ite_false]

/-- The ids of the document blocks are the store listing filtered by
membership among the mentions, in store order. -/
theorem mentioned_docs_map_fst (d : DocClient) (query : String) :
    (mentioned_docs d query).map Prod.fst =
      d.docIds.filter (fun i => (mentions_of query).contains i) :=
  filterMap_mention_map_fst d.docContent (mentions_of query) d.docIds

/-- With a duplicate-free store listing, a known and mentioned id yields
exactly one document block id. -/
theorem mentioned_docs_count_fst (d : DocClient) (query : String)
    (doc_id : String) (hnd : d.docIds.Nodup) (hmem : doc_id ∈ d.docIds)
    (hment : doc_id ∈ mentions_of query) :
    ((mentioned_docs d query).map Prod.fst).count doc_id = 1 := by
  rw [mentioned_docs_map_fst]
  refine List.count_eq_one_of_mem (List.Nodup.filter _ hnd) ?_
  rw [List.mem_filter]
  exact ⟨hmem, List.elem_eq_true_of_mem hment⟩

/-- An id absent from the store listing yields no document block, no
matter how often it is mentioned. -/
theorem mentioned_docs_count_fst_zero (d : DocClient) (query : String)
    (doc_id : String) (hmem : doc_id ∉ d.docIds) :
    ((mentioned_docs d query).map Prod.fst).count doc_id = 0 := by
  rw [mentioned_docs_map_fst]
  exact List.count_eq_zero_of_not_mem
    (fun hc => hmem (List.mem_of_mem_filter hc))

/-- Every document block pairs an id with the content fetched for that
very id. -/
theorem mentioned_docs_content (d : DocClient) (query : String) :
    ∀ p ∈ mentioned_docs d query, p.2 = d.docContent p.1 := by
  intro p hp
  rw [mentioned_docs, List.mem_filterMap] at hp
  obtain ⟨i, _, hif⟩ := hp
  by_cases hc : (mentions_of query).contains i
  · simp only [hc, if_pos, Option.mem_def, Option.some.injEq] at hif
    rw [← hif]
  · simp only [hc, Bool.false_eq_true, ite_false, Option.mem_def] at hif
    exact Option.noConfusion hif

/-- The source's resolution loop agrees with the spec's wording: it
returns the first client, in registration order, whose current catalog
contains the requested name. -/
theorem find_client_with_tool_eq_spec (clients : List MCPClient) (t : Nat)
    (name : String) :
    find_client_with_tool clients t name =
      first_client_with_current_catalog clients t name := by
  induction clients with
  | nil => rfl
  | cons c rest ih =>
    unfold find_client_with_tool first_client_with_current_catalog
    rw [List.find?_cons]
    cases hf : (c.toolsAt t).find? (fun tl => tl.name = name) with
    | some tl =>
      have hp := List.find?_some hf
      have hmem := List.mem_of_find?_eq_some hf
      have hany : (c.toolsAt t).any (fun tl => tl.name == name) = true := by
        rw [List.any_eq_true]
        exact ⟨tl, hmem, by simpa using hp⟩
      rw [hany]
    | none =>
      have hany : (c.toolsAt t).any (fun tl => tl.name == name) = false := by
        rw [Bool.eq_false_iff]
        intro hc
        rw [List.any_eq_true] at hc
        obtain ⟨tl, hmem, hp⟩ := hc
        rw [List.find?_eq_none] at hf
        exact hf tl hmem (by simpa using hp)
      rw [hany]
      exact ih

/-! ### Concrete fixtures for witnesses and counterexamples -/

/-- A concrete web-search catalog head. -/
def wsFix : ToolSchema :=
  ToolSchema.webSearch "web_search_20250305" "web_search" 5 ["google.com"]

/-- An assistant response requesting two tools. -/
def respFix : RespMessage :=
  { content := [RespBlock.text "calling",
      RespBlock.tool_use "t1" "add" "one",
      RespBlock.tool_use "t2" "mul" "two"],
    stop_reason := "tool_use" }

/-- A gateway that always answers `respFix`. -/
def gwFix : Gateway := fun _ _ _ => Except.ok respFix

/-- A gateway whose every invocation fails. -/
def gwDown : Gateway := fun _ _ _ => Except.error "connection refused"

/-- A client advertising one tool whose invocation raises. -/
def clientBoom : MCPClient :=
  { toolsAt := fun _ => [⟨"add", "adds numbers", "schema"⟩],
    call_tool := fun _ _ => Except.error "boom" }

/-! ### The claims -/

/-- Claim C1: for an assistant response whose stop reason is tool-use,
dispatch appends, after the assistant message, exactly one new user
message whose tool-result blocks carry the ids of the response's
tool-use blocks, same count and same relative order, and the loop
proceeds. -/
theorem tool_results_mirror_tool_uses
    (gw : Gateway) (clients : List MCPClient) (ws : ToolSchema)
    (fuel n : Nat) (messages : List MessageParam) (response : RespMessage)
    (hstop : response.stop_reason = "tool_use")
    (hgw : gw n messages (ws :: get_all_tools clients n) =
      Except.ok response) :
    runLoop gw clients ws (fuel + 1) n messages =
      runLoop gw clients ws fuel (n + 1)
        (messages ++ [assistantParam response,
          toolResultsParam (execute_tool_requests clients n response)]) ∧
    (execute_tool_requests clients n response).map
        (fun b => b.tool_use_id) =
      (tool_requests response).map (fun r => r.id) :=
  ⟨runLoop_tool_use_step gw clients ws fuel n messages response hstop hgw,
   execute_tool_requests_ids clients n response⟩

/-- Witness for C1 at a concrete gateway and response. -/
theorem tool_results_mirror_tool_uses_witness :
    respFix.stop_reason = "tool_use" ∧
    gwFix 0 [] (wsFix :: get_all_tools [] 0) = Except.ok respFix ∧
    (runLoop gwFix [] wsFix 1 0 [] =
      runLoop gwFix [] wsFix 0 1
        ([] ++ [assistantParam respFix,
          toolResultsParam (execute_tool_requests [] 0 respFix)]) ∧
     (execute_tool_requests [] 0 respFix).map (fun b => b.tool_use_id) =
       (tool_requests respFix).map (fun r => r.id)) :=
  ⟨rfl, rfl,
   tool_results_mirror_tool_uses gwFix [] wsFix 0 0 [] respFix rfl rfl⟩

/-- Claim C2: a tool-use request whose name no registered client
currently exposes yields the literal not-found error block, nothing is
raised, and the loop proceeds to the next gateway call. -/
theorem unknown_tool_yields_error_block
    (clients : List MCPClient) (t : Nat) (req : ToolUseReq)
    (h : ∀ c ∈ clients, ∀ tl ∈ c.toolsAt t, tl.name ≠ req.name) :
    execute_one clients t req =
      { tool_use_id := req.id, type := "tool_result",
        content := "Could not find that tool", is_error := true } ∧
    ∀ (gw : Gateway) (ws : ToolSchema) (fuel n : Nat)
      (messages : List MessageParam) (response : RespMessage),
      response.stop_reason = "tool_use" →
      gw n messages (ws :: get_all_tools clients n) = Except.ok response →
      runLoop gw clients ws (fuel + 1) n messages =
        runLoop gw clients ws fuel (n + 1)
          (messages ++ [assistantParam response,
            toolResultsParam (execute_tool_requests clients n response)]) := by
  constructor
  · unfold execute_one
    rw [find_client_with_tool_eq_none clients t req.name h]
    rfl
  · intro gw ws fuel n messages response hstop hgw
    exact runLoop_tool_use_step gw clients ws fuel n messages response
      hstop hgw

/-- Witness for C2: one registered client that only advertises `add`
cannot satisfy a request for `ghost`. -/
theorem unknown_tool_yields_error_block_witness :
    (∀ c ∈ [clientBoom], ∀ tl ∈ c.toolsAt 0,
      tl.name ≠ (ToolUseReq.mk "t9" "ghost" "inp").name) ∧
    (execute_one [clientBoom] 0 ⟨"t9", "ghost", "inp"⟩ =
      { tool_use_id := "t9", type := "tool_result",
        content := "Could not find that tool", is_error := true } ∧
     ∀ (gw : Gateway) (ws : ToolSchema) (fuel n : Nat)
       (messages : List MessageParam) (response : RespMessage),
       response.stop_reason = "tool_use" →
       gw n messages (ws :: get_all_tools [clientBoom] n) =
         Except.ok response →
       runLoop gw [clientBoom] ws (fuel + 1) n messages =
         runLoop gw [clientBoom] ws fuel (n + 1)
           (messages ++ [assistantParam response,
             toolResultsParam
               (execute_tool_requests [clientBoom] n response)])) :=
  ⟨by simp [clientBoom],
   unknown_tool_yields_error_block [clientBoom] 0 ⟨"t9", "ghost", "inp"⟩
     (by simp [clientBoom])⟩

/-- Claim C3: a raised tool invocation is caught and becomes an error
block whose content is the JSON-encoded error object; the rendered error
message contains the tool name and the raised message as substrings, and
the loop proceeds instead of propagating the failure. -/
theorem raised_tool_error_becomes_error_block
    (clients : List MCPClient) (t : Nat) (req : ToolUseReq)
    (client : MCPClient) (e : String)
    (hfind : find_client_with_tool clients t req.name = some client)
    (herr : client.call_tool req.name req.input = Except.error e) :
    execute_one clients t req =
      { tool_use_id := req.id, type := "tool_result",
        content := jsonDumpsErrorObj (toolErrorMessage req.name e),
        is_error := true } ∧
    (∃ a b, toolErrorMessage req.name e = a ++ req.name ++ b) ∧
    (∃ a, toolErrorMessage req.name e = a ++ e) ∧
    ∀ (gw : Gateway) (ws : ToolSchema) (fuel n : Nat)
      (messages : List MessageParam) (response : RespMessage),
      response.stop_reason = "tool_use" →
      gw n messages (ws :: get_all_tools clients n) = Except.ok response →
      runLoop gw clients ws (fuel + 1) n messages =
        runLoop gw clients ws fuel (n + 1)
          (messages ++ [assistantParam response,
            toolResultsParam (execute_tool_requests clients n response)]) := by
  refine ⟨?_, ?_, ?_, ?_⟩
  · unfold execute_one
    rw [hfind]
    dsimp only
    rw [herr]
    rfl
  · exact ⟨"Error executing tool \x27", "\x27: " ++ e,
      by rw [toolErrorMessage, String.append_assoc]⟩
  · exact ⟨"Error executing tool \x27" ++ req.name ++ "\x27: ", rfl⟩
  · intro gw ws fuel n messages response hstop hgw
    exact runLoop_tool_use_step gw clients ws fuel n messages response
      hstop hgw

/-- Witness for C3: `clientBoom` owns `add` and raises `boom`. -/
theorem raised_tool_error_becomes_error_block_witness :
    find_client_with_tool [clientBoom] 0 "add" = some clientBoom ∧
    clientBoom.call_tool "add" "x" = Except.error "boom" ∧
    (execute_one [clientBoom] 0 ⟨"t1", "add", "x"⟩ =
      { tool_use_id := "t1", type := "tool_result",
        content := jsonDumpsErrorObj (toolErrorMessage "add" "boom"),
        is_error := true } ∧
     (∃ a b, toolErrorMessage "add" "boom" = a ++ "add" ++ b) ∧
     (∃ a, toolErrorMessage "add" "boom" = a ++ "boom") ∧
     ∀ (gw : Gateway) (ws : ToolSchema) (fuel n : Nat)
       (messages : List MessageParam) (response : RespMessage),
       response.stop_reason = "tool_use" →
       gw n messages (ws :: get_all_tools [clientBoom] n) =
         Except.ok response →
       runLoop gw [clientBoom] ws (fuel + 1) n messages =
         runLoop gw [clientBoom] ws fuel (n + 1)
           (messages ++ [assistantParam response,
             toolResultsParam
               (execute_tool_requests [clientBoom] n response)])) :=
  ⟨rfl, rfl,
   raised_tool_error_becomes_error_block [clientBoom] 0 ⟨"t1", "add", "x"⟩
     clientBoom "boom" rfl rfl⟩

/-- Claim C4: if the turn loop ends with a gateway error, the returned
history extends what was there before `run` reached that call, and it is
exactly the history the failing gateway call was made with: no assistant
message, full or partial, from the failed call was appended. -/
theorem gateway_failure_leaves_history_intact
    (gw : Gateway) (clients : List MCPClient) (ws : ToolSchema)
    (fuel n : Nat) (messages h : List MessageParam) (e : String)
    (hrun : runLoop gw clients ws fuel n messages =
      (h, RunOutcome.gatewayError e)) :
    (∃ tail, h = messages ++ tail) ∧
    ∃ k, gw k h (ws :: get_all_tools clients k) = Except.error e := by
  induction fuel generalizing n messages with
  | zero =>
    exfalso
    simp only [runLoop] at hrun
    exact RunOutcome.noConfusion (congrArg Prod.snd hrun)
  | succ fuel ih =>
    cases hgw : gw n messages (ws :: get_all_tools clients n) with
    | error e' =>
      rw [runLoop_gateway_error gw clients ws fuel n messages e' hgw]
        at hrun
      have h1 : messages = h := congrArg Prod.fst hrun
      have h2 : e' = e := by
        have := congrArg Prod.snd hrun
        simp only at this
        injection this
      subst h1
      subst h2
      exact ⟨⟨[], by simp⟩, n, hgw⟩
    | ok response =>
      by_cases hstop : response.stop_reason = "tool_use"
      · rw [runLoop_tool_use_step gw clients ws fuel n messages response
          hstop hgw] at hrun
        obtain ⟨⟨tail, htail⟩, k, hk⟩ := ih (n + 1) _ hrun
        refine ⟨⟨[assistantParam response,
          toolResultsParam (execute_tool_requests clients n response)] ++
            tail, ?_⟩, k, hk⟩
        rw [htail, List.append_assoc]
      · rw [runLoop_done gw clients ws fuel n messages response hstop hgw]
          at hrun
        exact RunOutcome.noConfusion (congrArg Prod.snd hrun)

/-- Witness for C4: a gateway that is down on the first call leaves the
history empty. -/
theorem gateway_failure_leaves_history_intact_witness :
    runLoop gwDown [] wsFix 1 0 [] =
      ([], RunOutcome.gatewayError "connection refused") ∧
    ((∃ tail, ([] : List MessageParam) = [] ++ tail) ∧
     ∃ k, gwDown k [] (wsFix :: get_all_tools [] k) =
       Except.error "connection refused") :=
  ⟨rfl,
   gateway_failure_leaves_history_intact gwDown [] wsFix 1 0 [] []
     "connection refused" rfl⟩

/-- A resource collaborator whose rendered template records the prompt
name and argument it was resolved with. -/
def docSlash : DocClient :=
  { docIds := [], docContent := fun _ => "", prompts := [],
    get_prompt := fun name doc_id =>
      [⟨"user", PMContent.text ("P:" ++ name ++ ":" ++ doc_id)⟩] }

/-- A store with the single document `a` holding content `A`. -/
def docA : DocClient :=
  { docIds := ["a"], docContent := fun _ => "A", prompts := [],
    get_prompt := fun _ _ => [] }

/-- A store listing `a` then `b`, content derived from the id. -/
def docAB : DocClient :=
  { docIds := ["a", "b"], docContent := fun i => "C" ++ i, prompts := [],
    get_prompt := fun _ _ => [] }

/-- Counterexample to C5 as stated: for query `/a/b x` the code resolves
the template named `ab` — every occurrence of `/` removed from token 1 —
not `a/b`, the token minus its leading marker. -/
theorem slash_command_marker_counterexample :
    process_query (some docSlash) [] "/a/b x" =
      [{ role := Role.user, content := MPContent.str "P:ab:x" }] ∧
    pyDrop "/a/b" 1 ≠ "ab" := by
  refine ⟨by decide, by decide⟩

/-- Claim C5 (amended): a query starting with `/` that has at least two
whitespace-separated tokens appends exactly the converted rendering of
the template named by token 1 with every `/` removed, with argument
`doc_id = token 2`; no mention expansion and no wrapper message happen
for that query. -/
theorem slash_command_appends_rendered_template
    (d : DocClient) (messages : List MessageParam) (query : String)
    (h1 : pyStartsWith query "/" = true)
    (h2 : 2 ≤ (pySplit query).length) :
    process_query (some d) messages query =
      messages ++ convert_prompt_messages_to_message_params
        (d.get_prompt (pyReplace ((pySplit query).headD "") "/" "")
          ((pySplit query).getD 1 "")) := by
  unfold process_query process_command
  simp only [h1, if_true]
  rw [if_neg (by omega : ¬ ((pySplit query).length < 2))]

/-- Witness for C5 (amended) at the spec's own example query. -/
theorem slash_command_appends_rendered_template_witness :
    pyStartsWith "/format report.pdf" "/" = true ∧
    2 ≤ (pySplit "/format report.pdf").length ∧
    process_query (some docSlash) [] "/format report.pdf" =
      [] ++ convert_prompt_messages_to_message_params
        (docSlash.get_prompt
          (pyReplace ((pySplit "/format report.pdf").headD "") "/" "")
          ((pySplit "/format report.pdf").getD 1 "")) :=
  ⟨by decide, by decide,
   slash_command_appends_rendered_template docSlash [] "/format report.pdf"
     (by decide) (by decide)⟩

/-- Counterexample to C6 as stated: in `@a x @a` two `@`-tokens strip to
the known id `a`, yet the context section carries a single document
block for `a`, not one block per token. -/
theorem mention_per_token_counterexample :
    (mentions_of "@a x @a").count "a" = 2 ∧
    ((mentioned_docs docA "@a x @a").map Prod.fst).count "a" = 1 ∧
    extract_resources (some docA) "@a x @a" = documentBlock "a" "A" := by
  refine ⟨by decide, by decide, by decide⟩

/-- Claim C6 (amended): for a non-command query, each known resource id
mentioned by at least one `@`-token contributes exactly one document
block, carrying that id and its fetched content; an id no `@`-token
matches, or a mention matching no known id, contributes no block and
raises nothing; and the instructional wrapper message is appended even
when the context is empty. -/
theorem mention_expansion_blocks
    (d : DocClient) (messages : List MessageParam) (query doc_id : String)
    (hnd : d.docIds.Nodup) (hq : pyStartsWith query "/" = false) :
    (doc_id ∈ d.docIds → doc_id ∈ mentions_of query →
      ((mentioned_docs d query).map Prod.fst).count doc_id = 1) ∧
    (doc_id ∉ d.docIds →
      ((mentioned_docs d query).map Prod.fst).count doc_id = 0) ∧
    (∀ p ∈ mentioned_docs d query, p.2 = d.docContent p.1) ∧
    process_query (some d) messages query =
      messages ++ [MessageParam.mk Role.user (MPContent.str
        (queryPrompt query (extract_resources (some d) query)))] := by
  refine ⟨fun hmem hment =>
      mentioned_docs_count_fst d query doc_id hnd hmem hment,
    fun hmem => mentioned_docs_count_fst_zero d query doc_id hmem,
    mentioned_docs_content d query, ?_⟩
  unfold process_query process_command
  simp only
  rw [if_neg (by simp [hq] : ¬ (pyStartsWith query "/" = true))]

/-- Witness for C6 (amended): a known mention and an unknown one in the
same query. -/
theorem mention_expansion_blocks_witness :
    docAB.docIds.Nodup ∧ pyStartsWith "@a hi @nope" "/" = false ∧
    (("nope" ∈ docAB.docIds → "nope" ∈ mentions_of "@a hi @nope" →
       ((mentioned_docs docAB "@a hi @nope").map Prod.fst).count "nope"
         = 1) ∧
     ("nope" ∉ docAB.docIds →
       ((mentioned_docs docAB "@a hi @nope").map Prod.fst).count "nope"
         = 0) ∧
     (∀ p ∈ mentioned_docs docAB "@a hi @nope",
       p.2 = docAB.docContent p.1) ∧
     process_query (some docAB) [] "@a hi @nope" =
       [] ++ [MessageParam.mk Role.user (MPContent.str
         (queryPrompt "@a hi @nope"
           (extract_resources (some docAB) "@a hi @nope")))]) :=
  ⟨by decide, by decide,
   mention_expansion_blocks docAB [] "@a hi @nope" "nope" (by decide)
     (by decide)⟩

/-- Counterexample to C7 as stated: the fixed entry's `type` field is
the versioned string `web_search_20250305`, not `web_search`. -/
theorem web_search_type_counterexample :
    WEB_SEARCH_SCHEMA (fun _ => none) =
      some (ToolSchema.webSearch "web_search_20250305" "web_search" 5
        ["google.com"]) ∧
    "web_search_20250305" ≠ "web_search" := by
  refine ⟨by decide, by decide⟩

/-- Claim C7 (amended): the entry prepended before the union of the
client catalogs on every iteration is the fixed
`{type := web_search_20250305, name := web_search, max_uses, allowed_domains}`
descriptor; the loop consults the gateway only on catalogs of exactly
that shape, and the dispatcher never resolves `web_search` from it: with
no client advertising the name, resolution finds nothing. -/
theorem web_search_entry_prepended_not_dispatched
    (env : String → Option String) (ws : ToolSchema)
    (h : WEB_SEARCH_SCHEMA env = some ws) :
    (∃ m ds, ws =
      ToolSchema.webSearch "web_search_20250305" "web_search" m ds) ∧
    (∀ (clients : List MCPClient) (gw gw' : Gateway) (fuel n : Nat)
       (messages : List MessageParam),
       (∀ k hist, gw k hist (ws :: get_all_tools clients k) =
         gw' k hist (ws :: get_all_tools clients k)) →
       runLoop gw clients ws fuel n messages =
         runLoop gw' clients ws fuel n messages) ∧
    (∀ (clients : List MCPClient) (t : Nat),
       (∀ c ∈ clients, ∀ tl ∈ c.toolsAt t, tl.name ≠ "web_search") →
       find_client_with_tool clients t "web_search" = none) := by
  refine ⟨?_, ?_, ?_⟩
  · rw [WEB_SEARCH_SCHEMA, Option.map_eq_some'] at h
    obtain ⟨m, _, hm⟩ := h
    exact ⟨m, web_search_allowed_domains env, hm.symm⟩
  · intro clients gw gw' fuel n messages hgg
    induction fuel generalizing n messages with
    | zero => rfl
    | succ fuel ih =>
      simp only [runLoop]
      rw [hgg n messages]
      cases gw' n messages (ws :: get_all_tools clients n) with
      | error e => rfl
      | ok response =>
        dsimp only
        by_cases hstop : response.stop_reason = "tool_use"
        · rw [if_pos hstop, if_pos hstop]
          exact ih (n + 1) _
        · rw [if_neg hstop, if_neg hstop]
  · intro clients t hno
    exact find_client_with_tool_eq_none clients t "web_search" hno

/-- Witness for C7 (amended) at the default environment. -/
theorem web_search_entry_prepended_not_dispatched_witness :
    WEB_SEARCH_SCHEMA (fun _ => none) = some wsFix ∧
    ((∃ m ds, wsFix =
       ToolSchema.webSearch "web_search_20250305" "web_search" m ds) ∧
     (∀ (clients : List MCPClient) (gw gw' : Gateway) (fuel n : Nat)
        (messages : List MessageParam),
        (∀ k hist, gw k hist (wsFix :: get_all_tools clients k) =
          gw' k hist (wsFix :: get_all_tools clients k)) →
        runLoop gw clients wsFix fuel n messages =
          runLoop gw' clients wsFix fuel n messages) ∧
     (∀ (clients : List MCPClient) (t : Nat),
        (∀ c ∈ clients, ∀ tl ∈ c.toolsAt t, tl.name ≠ "web_search") →
        find_client_with_tool clients t "web_search" = none)) :=
  ⟨by decide,
   web_search_entry_prepended_not_dispatched (fun _ => none) wsFix
     (by decide)⟩

/-- Claim C8: the dispatcher's resolution walks the registered clients
in registration order against the catalog each advertises at the fetch
epoch of this very dispatch, and picks the first whose current catalog
contains the requested name — for every epoch, so a catalog change
between dispatches changes the selection (no cache). -/
theorem dispatcher_selects_first_fresh_catalog_match :
    ∀ (clients : List MCPClient) (t : Nat) (name : String),
      find_client_with_tool clients t name =
        first_client_with_current_catalog clients t name :=
  find_client_with_tool_eq_spec

/-- Claim C9: with no resource collaborator, the prompt and id listings
are empty, content lookup yields the empty string, no query is treated
as a slash command, and every query synthesizes the wrapper message with
an empty context — all total, nothing raises. -/
theorem no_doc_client_defaults :
    ∀ (query doc_id : String) (messages : List MessageParam),
      list_prompts none = [] ∧
      list_docs_ids none = [] ∧
      get_doc_content none doc_id = "" ∧
      process_command none query = none ∧
      extract_resources none query = "" ∧
      process_query none messages query =
        messages ++ [MessageParam.mk Role.user
          (MPContent.str (queryPrompt query ""))] :=
  fun _ _ _ => ⟨rfl, rfl, rfl, rfl, rfl, rfl⟩

/-- Claim C10: the document blocks follow the order of the store's id
listing — the block ids are exactly the listing filtered by mention
membership — and an id mentioned several times in one query yields a
single block, hence a single content fetch. -/
theorem document_blocks_store_order_and_dedup
    (d : DocClient) (query doc_id : String)
    (hnd : d.docIds.Nodup) (hmem : doc_id ∈ d.docIds)
    (hment : doc_id ∈ mentions_of query) :
    ((mentioned_docs d query).map Prod.fst =
      d.docIds.filter (fun i => (mentions_of query).contains i)) ∧
    ((mentioned_docs d query).map Prod.fst).count doc_id = 1 :=
  ⟨mentioned_docs_map_fst d query,
   mentioned_docs_count_fst d query doc_id hnd hmem hment⟩

/-- Witness for C10: `a` mentioned twice, `b` once, store order `a, b`
while the query mentions `b` first. -/
theorem document_blocks_store_order_and_dedup_witness :
    docAB.docIds.Nodup ∧ "a" ∈ docAB.docIds ∧
    "a" ∈ mentions_of "@b z @a @a" ∧
    (((mentioned_docs docAB "@b z @a @a").map Prod.fst =
       docAB.docIds.filter
         (fun i => (mentions_of "@b z @a @a").contains i)) ∧
     ((mentioned_docs docAB "@b z @a @a").map Prod.fst).count "a" = 1) :=
  ⟨by decide, by decide, by decide,
   document_blocks_store_order_and_dedup docAB "@b z @a @a" "a"
     (by decide) (by decide) (by decide)⟩

end Fulcrum
